import Mathlib

set_option maxRecDepth 16000

/-!
Verification of the Tauri webview IPC bridge (`src/core/tauri/src/webview/mod.rs`):
the invoke-request dispatch pipeline of `Webview::on_message`, the remote-access
scope handling, the JS event-listener registry
(`listen_js` / `unlisten_js` / `has_js_listener`), and the one-shot invoke
resolver.  Definitions are shallow embeddings of the Rust source; external
collaborators (the URL crate's `make_relative`, the plugin/command handler
tables, the scope policy source) appear as explicit parameters.
-/

namespace TauriWebview

/-- Rust `EventSource` (crate::event): addressing tag for event routing. -/
inductive EventSource where
  | global
  | window (label : String)
  | webview (label : String)
deriving DecidableEq, Repr

/-- Rust `JsEventListenerKey`: key for a JS event listener, a (source, event-name) pair. -/
structure JsEventListenerKey where
  source : EventSource
  event : String
deriving DecidableEq, Repr

/-- Listener ids (`EventId` in the source) are process-unique integers. -/
abbrev EventId := Nat

/-- The `js_event_listeners` map: (source, event) keys to sets of listener ids.
The Rust `HashMap<JsEventListenerKey, HashSet<EventId>>` is modelled as an
association list; ids are globally unique so each id lives in at most one set. -/
abbrev Registry := List (JsEventListenerKey × List EventId)

/-- Rust `HashMap::contains_key` on the listener registry. -/
def containsKey (reg : Registry) (k : JsEventListenerKey) : Bool :=
  reg.any (fun p => p.1 == k)

/-- Rust `Webview::has_js_listener`: whether this webview registered a listener for an
event from the given source.  `windowLabel` is `self.window.label()`. -/
def has_js_listener (windowLabel : String) (reg : Registry)
    (source : EventSource) (event : String) : Bool :=
  match source with
  | .global =>
    -- for global events, any listener is triggered
    reg.any (fun p => p.1.event == event)
  | .window label =>
    if label == windowLabel then
      -- the window matches this webview's window: exact key, same-label webview
      -- key, or global key
      containsKey reg ⟨.window label, event⟩
        || containsKey reg ⟨.webview label, event⟩
        || containsKey reg ⟨.global, event⟩
    else
      containsKey reg ⟨.window label, event⟩ || containsKey reg ⟨.global, event⟩
  | .webview label =>
    containsKey reg ⟨.webview label, event⟩ || containsKey reg ⟨.global, event⟩

/-- Rust `Webview::listen_js` restricted to its registry mutation: insert the freshly
allocated `id` into the set at key `k`, creating the entry if absent.  The
client-side shim installation script is an external side effect and not
modelled. -/
def listen_js (reg : Registry) (k : JsEventListenerKey) (id : EventId) : Registry :=
  match reg with
  | [] => [(k, [id])]
  | (k', ids) :: rest =>
    if k' == k then
      (k', if ids.contains id then ids else ids ++ [id]) :: rest
    else
      (k', ids) :: listen_js rest k id

/-- Rust `Webview::unlisten_js` restricted to its registry mutation: remove `id` from
the first set containing it and drop the key when the set becomes empty.  The
`event` argument is only used by the client-side teardown script, an external
side effect not modelled here. -/
def unlisten_js (reg : Registry) (event : String) (id : EventId) : Registry :=
  match reg with
  | [] => []
  | (k, ids) :: rest =>
    if ids.contains id then
      let remaining := ids.filter (fun x => x != id)
      if remaining.isEmpty then rest else (k, remaining) :: rest
    else
      (k, ids) :: unlisten_js rest event id

/-- Modelled from the spec: the `InvokeResolver` (crate::ipc, not under `src/`)
holds a single-use responder slot (a `Some` to `None` transition); `resolve` and
`reject` each attempt to take the slot, and a call finding the slot empty is a
silent no-op.  `responses` records every observable response sent over the
bridge, tagged `true` for the success callback and `false` for the error
callback. -/
structure ResolverState where
  slotFull : Bool
  responses : List (Bool × String)
deriving DecidableEq, Repr

/-- A call made on the resolver by a handler. -/
inductive ResolverCall where
  | resolve (v : String)
  | reject (v : String)
deriving DecidableEq, Repr

/-- The resolver paired with a fresh invoke request: slot occupied, nothing sent. -/
def freshResolver : ResolverState := ⟨true, []⟩

/-- Modelled from the spec: one `resolve`/`reject` attempt on the single-use
slot.  If the slot is full it is consumed and exactly one response is sent;
otherwise the call is silently dropped. -/
def resolverStep (s : ResolverState) (c : ResolverCall) : ResolverState :=
  if s.slotFull then
    match c with
    | .resolve v => ⟨false, s.responses ++ [(true, v)]⟩
    | .reject v => ⟨false, s.responses ++ [(false, v)]⟩
  else s

/-- A sequence of resolve/reject calls against a fresh resolver. -/
def runResolver (cs : List ResolverCall) : ResolverState :=
  cs.foldl resolverStep freshResolver

/-- Rust `IPC_SCOPE_DOES_NOT_ALLOW`: the fixed plugin-scope rejection message. -/
def IPC_SCOPE_DOES_NOT_ALLOW : String := "Not allowed by the scope"

/-- Rust `ipc_scope_not_found_error_message`. -/
def ipc_scope_not_found_error_message (label url : String) : String :=
  "Scope not defined for window `" ++ label ++ "` and URL `" ++ url ++
    "`. See https://tauri.app/v1/api/config/#securityconfig.dangerousremotedomainipcaccess and https://docs.rs/tauri/1/tauri/scope/struct.IpcScope.html#method.configure_remote_access"

/-- Rust `ipc_scope_window_error_message`. -/
def ipc_scope_window_error_message (label : String) : String :=
  "Scope not defined for window `" ++ label ++
    "`. See https://tauri.app/v1/api/config/#securityconfig.dangerousremotedomainipcaccess and https://docs.rs/tauri/1/tauri/scope/struct.IpcScope.html#method.configure_remote_access"

/-- Rust `ipc_scope_domain_error_message`. -/
def ipc_scope_domain_error_message (url : String) : String :=
  "Scope not defined for URL `" ++ url ++
    "`. See https://tauri.app/v1/api/config/#securityconfig.dangerousremotedomainipcaccess and https://docs.rs/tauri/1/tauri/scope/struct.IpcScope.html#method.configure_remote_access"

/-- A URL as consumed by `is_local_url`: its string form (`as_str`), `scheme()`
and `domain()`. -/
structure Url where
  full : String
  scheme : String
  domain : Option String
deriving DecidableEq, Repr

/-- The configuration `is_local_url` reads from the manager: the protocol URL
(`manager.protocol_url()`), whether this is a dev build (`cfg!(dev)`), and the
URL crate's `make_relative` on the manager's app URL, an external collaborator
exposed only through `is_some()` on its result. -/
structure Env where
  protocolUrl : Url
  dev : Bool
  makeRelativeSome : Url → Bool

/-- Rust `Webview::is_local_url`. -/
def is_local_url (env : Env) (currentUrl : Url) : Bool :=
  env.makeRelativeSome currentUrl
    || (currentUrl.scheme == env.protocolUrl.scheme
        && currentUrl.domain == env.protocolUrl.domain)
    || (env.dev && currentUrl.domain == some "tauri.localhost")

/-- Modelled from the spec: `crate::ipc::channel::CHANNEL_PLUGIN_NAME` (not under
`src/`), the name of the designated channel-transport pseudo-plugin that is
exempt from the plugin-scope restriction. -/
def CHANNEL_PLUGIN_NAME : String := "__TAURI_CHANNEL__"

/-- One recursion step of Rust's `str::replace(pat, "")`: delete every
non-overlapping occurrence of `pat`, scanning left to right.  `fuel` is an upper
bound on the remaining characters; each step consumes one fuel and at least one
character, so starting with `fuel = s.length` the fuel never runs out. -/
def removeAllAux (pat : List Char) : Nat → List Char → List Char
  | _, [] => []
  | 0, s => s
  | fuel + 1, c :: rest =>
    if pat.isPrefixOf (c :: rest) then
      removeAllAux pat fuel (rest.drop (pat.length - 1))
    else
      c :: removeAllAux pat fuel rest

/-- Rust's `str::replace(pat, "")` on character lists: delete every
non-overlapping occurrence of `pat`. -/
def removeAll (pat s : List Char) : List Char :=
  removeAllAux pat s.length s

/-- Rust's `str::split(sep)` on character lists: always returns at least one
(possibly empty) token. -/
def splitChar (sep : Char) : List Char → List (List Char)
  | [] => [[]]
  | c :: rest =>
    match splitChar sep rest with
    | [] => [[]]
    | t :: ts => if c == sep then [] :: t :: ts else (c :: t) :: ts

/-- Rust `request.cmd.starts_with("plugin:")`. -/
def startsWithPlugin (cmd : String) : Bool :=
  "plugin:".data.isPrefixOf cmd.data

/-- The plugin routing step of `on_message`: `cmd.replace("plugin:", "")`, then
`split('|')`; the plugin name is the first token and the command is the second
token, or the empty string when the split yields a single token. -/
def routePlugin (cmd : String) : String × String :=
  let tokens := splitChar '|' (removeAll "plugin:".data cmd.data)
  (⟨tokens.headD []⟩, ⟨(tokens.drop 1).headD []⟩)

/-- The result of `IpcScope::remote_access_for` (crate::scope) as consumed by
`on_message`: `Ok` carries the allowed plugin names; `Err` carries the
`matches_window` / `matches_domain` diagnostic booleans. -/
inductive ScopeAccess where
  | allowed (plugins : List String)
  | denied (matchesWindow matchesDomain : Bool)
deriving DecidableEq, Repr

/-- The handler tables `on_message` dispatches into, external collaborators:
`manager.extend_api(plugin, invoke)` (the invoke's command is the routed
command) and `manager.run_invoke_handler(invoke)`; each reports whether some
handler matched. -/
structure Handlers where
  extendApi : String → String → Bool
  runInvokeHandler : String → Bool

/-- The observable outcome of one `on_message` dispatch: which handler-table
lookups were performed (with their arguments), and the message passed to
`resolver.reject` by the dispatcher itself, if any.  A handler that was found
(`none` rejection) completes the resolver later on its own. -/
structure DispatchResult where
  pluginCalls : List (String × String)
  directCalls : List String
  rejectMsg : Option String
deriving DecidableEq, Repr

/-- Rust `Webview::on_message` (desktop configuration): classify the origin, apply
the scope gate for remote origins, route plugin-namespaced commands, enforce the
plugin-scope restriction, and dispatch to the handler tables, rejecting with
`Command {name} not found` when no handler matches. -/
def on_message (env : Env) (label : String) (currentUrl : Url)
    (remoteAccess : ScopeAccess) (h : Handlers) (cmd : String) : DispatchResult :=
  let isLocal := is_local_url env currentUrl
  let scopeNotFoundMsg : String :=
    if isLocal then ipc_scope_not_found_error_message label currentUrl.full
    else
      match remoteAccess with
      | .allowed _ => ipc_scope_not_found_error_message label currentUrl.full
      | .denied mw md =>
        if mw then ipc_scope_domain_error_message currentUrl.full
        else if md then ipc_scope_window_error_message label
        else ipc_scope_not_found_error_message label currentUrl.full
  let scope : Option (List String) :=
    if isLocal then none
    else
      match remoteAccess with
      | .allowed plugins => some plugins
      | .denied _ _ => none
  if !isLocal && scope.isNone then
    ⟨[], [], some scopeNotFoundMsg⟩
  else if startsWithPlugin cmd then
    let pc := routePlugin cmd
    if !(isLocal || pc.1 == CHANNEL_PLUGIN_NAME
          || (scope.map (fun s => s.contains pc.1)).getD true) then
      ⟨[], [], some IPC_SCOPE_DOES_NOT_ALLOW⟩
    else if h.extendApi pc.1 pc.2 then
      ⟨[(pc.1, pc.2)], [], none⟩
    else
      ⟨[(pc.1, pc.2)], [], some ("Command " ++ pc.2 ++ " not found")⟩
  else
    if h.runInvokeHandler cmd then
      ⟨[], [cmd], none⟩
    else
      ⟨[], [cmd], some ("Command " ++ cmd ++ " not found")⟩

/-- Rust `Webview::on_message` with the fail-open `unwrap_or(true)` default of the
plugin-scope check replaced by a fail-closed `false` default; used to state that
the default is semantically unreachable. -/
def on_message_scope_fail_closed (env : Env) (label : String) (currentUrl : Url)
    (remoteAccess : ScopeAccess) (h : Handlers) (cmd : String) : DispatchResult :=
  let isLocal := is_local_url env currentUrl
  let scopeNotFoundMsg : String :=
    if isLocal then ipc_scope_not_found_error_message label currentUrl.full
    else
      match remoteAccess with
      | .allowed _ => ipc_scope_not_found_error_message label currentUrl.full
      | .denied mw md =>
        if mw then ipc_scope_domain_error_message currentUrl.full
        else if md then ipc_scope_window_error_message label
        else ipc_scope_not_found_error_message label currentUrl.full
  let scope : Option (List String) :=
    if isLocal then none
    else
      match remoteAccess with
      | .allowed plugins => some plugins
      | .denied _ _ => none
  if !isLocal && scope.isNone then
    ⟨[], [], some scopeNotFoundMsg⟩
  else if startsWithPlugin cmd then
    let pc := routePlugin cmd
    if !(isLocal || pc.1 == CHANNEL_PLUGIN_NAME
          || (scope.map (fun s => s.contains pc.1)).getD false) then
      ⟨[], [], some IPC_SCOPE_DOES_NOT_ALLOW⟩
    else if h.extendApi pc.1 pc.2 then
      ⟨[(pc.1, pc.2)], [], none⟩
    else
      ⟨[(pc.1, pc.2)], [], some ("Command " ++ pc.2 ++ " not found")⟩
  else
    if h.runInvokeHandler cmd then
      ⟨[], [cmd], none⟩
    else
      ⟨[], [cmd], some ("Command " ++ cmd ++ " not found")⟩

/-- Whether `pat` occurs as a contiguous segment of `s` (scans every suffix);
used to state when `removeAll` leaves a string unchanged. -/
def occursB (pat : List Char) : List Char → Bool
  | [] => pat.isEmpty
  | c :: rest => pat.isPrefixOf (c :: rest) || occursB pat rest

/-- A sample remote-access configuration: the app and protocol URL are the
bundled `tauri://localhost` origin, production build, and the URL crate reports
no URL as relative to the app URL. -/
def env0 : Env := ⟨⟨"tauri://localhost", "tauri", some "localhost"⟩, false, fun _ => false⟩

/-- A configuration whose `make_relative` classifies every URL as part of the
app origin, so every request is local. -/
def envL : Env := ⟨⟨"tauri://localhost", "tauri", some "localhost"⟩, false, fun _ => true⟩

/-- A sample remote URL, not local under `env0`. -/
def url0 : Url := ⟨"https://remote.example/", "https", some "remote.example"⟩

/-- Handler tables where no plugin command and no direct command matches. -/
def h0 : Handlers := ⟨fun _ _ => false, fun _ => false⟩

/-- One resolver call preserves the invariant: a full slot means nothing was
sent yet, and at most one response has been sent. -/
theorem resolverStep_invariant (s : ResolverState) (c : ResolverCall)
    (h1 : s.slotFull = true → s.responses = []) (h2 : s.responses.length ≤ 1) :
    ((resolverStep s c).slotFull = true → (resolverStep s c).responses = [])
      ∧ (resolverStep s c).responses.length ≤ 1 := by
  unfold resolverStep
  cases hs : s.slotFull with
  | false =>
    rw [if_neg (by simp [hs])]
    exact ⟨h1, h2⟩
  | true =>
    have hr : s.responses = [] := h1 hs
    cases c <;> simp [hs, hr]

/-- Any sequence of resolver calls preserves the single-response invariant. -/
theorem resolver_foldl_invariant (cs : List ResolverCall) (s : ResolverState)
    (h1 : s.slotFull = true → s.responses = []) (h2 : s.responses.length ≤ 1) :
    ((cs.foldl resolverStep s).slotFull = true → (cs.foldl resolverStep s).responses = [])
      ∧ (cs.foldl resolverStep s).responses.length ≤ 1 := by
  induction cs generalizing s with
  | nil => exact ⟨h1, h2⟩
  | cons c cs ih =>
    simp only [List.foldl_cons]
    have hstep := resolverStep_invariant s c h1 h2
    exact ih (resolverStep s c) hstep.1 hstep.2

/-- C4: the Resolver's responder slot is consumed at most once.  Any sequence of
resolve/reject calls on a fresh resolver sends at most one observable response;
resolve followed by resolve sends exactly the first response, reject after
resolve sends nothing further, and any call on a consumed slot is a silent
no-op returning the state unchanged. -/
theorem c4_resolver_single_use :
    (∀ cs : List ResolverCall, (runResolver cs).responses.length ≤ 1)
    ∧ (∀ v w, runResolver [.resolve v, .resolve w] = ⟨false, [(true, v)]⟩)
    ∧ (∀ v w, runResolver [.resolve v, .reject w] = ⟨false, [(true, v)]⟩)
    ∧ (∀ (s : ResolverState) (c : ResolverCall), s.slotFull = false → resolverStep s c = s) := by
  refine ⟨?_, ?_, ?_, ?_⟩
  · intro cs
    exact (resolver_foldl_invariant cs freshResolver (fun _ => rfl) (by simp [freshResolver])).2
  · intro v w; rfl
  · intro v w; rfl
  · intro s c hs; simp [resolverStep, hs]

/-- Witness for C4 at concrete inputs: a late reject on a consumed slot is
dropped, and two resolves send at most one response. -/
theorem c4_resolver_single_use_witness :
    resolverStep ⟨false, [(true, "ok")]⟩ (.reject "late") = ⟨false, [(true, "ok")]⟩
      ∧ (runResolver [.resolve "a", .resolve "b"]).responses.length ≤ 1 :=
  ⟨c4_resolver_single_use.2.2.2 ⟨false, [(true, "ok")]⟩ (.reject "late") rfl,
   c4_resolver_single_use.1 [.resolve "a", .resolve "b"]⟩

/-- C5: the delivery cascade of `has_js_listener`.  A Global-sourced emission
matches any registration with the same event name regardless of stored source;
a Window-sourced emission on the webview of that window matches Window, Webview
and Global registrations for that label; any other source matches only its
exact key or Global — in particular a Webview-sourced emission never matches a
Window registration of the same label. -/
theorem c5_has_js_listener_cascade (wl : String) (reg : Registry) (event : String) :
    ((∃ p ∈ reg, p.1.event = event) → has_js_listener wl reg .global event = true)
    ∧ (has_js_listener wl reg (.window wl) event
        = (containsKey reg ⟨.window wl, event⟩ || containsKey reg ⟨.webview wl, event⟩
            || containsKey reg ⟨.global, event⟩))
    ∧ (∀ lbl, lbl ≠ wl → has_js_listener wl reg (.window lbl) event
        = (containsKey reg ⟨.window lbl, event⟩ || containsKey reg ⟨.global, event⟩))
    ∧ (∀ lbl, has_js_listener wl reg (.webview lbl) event
        = (containsKey reg ⟨.webview lbl, event⟩ || containsKey reg ⟨.global, event⟩))
    ∧ (∀ (w e : String) (ids : List EventId),
        has_js_listener w [(⟨.window w, e⟩, ids)] (.webview w) e = false) := by
  refine ⟨?_, ?_, ?_, ?_, ?_⟩
  · rintro ⟨p, hmem, hev⟩
    simp only [has_js_listener, List.any_eq_true]
    exact ⟨p, hmem, by simp [hev]⟩
  · simp [has_js_listener]
  · intro lbl hne
    simp [has_js_listener, hne]
  · intro lbl; rfl
  · intro w e ids
    simp [has_js_listener, containsKey]

/-- Witness for C5 at a concrete registry: a single Window-keyed listener is
reached by a Global emission and by a cross-label Window emission rule, but not
by a same-label Webview emission. -/
theorem c5_has_js_listener_cascade_witness :
    has_js_listener "w" [(⟨.window "w", "e"⟩, [1])] .global "e" = true
      ∧ has_js_listener "w" [(⟨.window "w", "e"⟩, [1])] (.window "other") "e"
          = (containsKey [(⟨.window "w", "e"⟩, [1])] ⟨.window "other", "e"⟩
              || containsKey [(⟨.window "w", "e"⟩, [1])] ⟨.global, "e"⟩)
      ∧ has_js_listener "w" [(⟨.window "w", "e"⟩, [1])] (.webview "w") "e" = false :=
  ⟨(c5_has_js_listener_cascade "w" [(⟨.window "w", "e"⟩, [1])] "e").1
      ⟨(⟨.window "w", "e"⟩, [1]), by simp, rfl⟩,
   (c5_has_js_listener_cascade "w" [(⟨.window "w", "e"⟩, [1])] "e").2.2.1 "other" (by decide),
   (c5_has_js_listener_cascade "w" [(⟨.window "w", "e"⟩, [1])] "e").2.2.2.2 "w" "e" [1]⟩

/-- C1: a request from a non-local origin for which the scope gate yields no
Allowed decision (it returned `Err`, in particular when no remote-access policy
is configured) is rejected via the resolver and terminates without invoking any
plugin or direct command handler. -/
theorem c1_remote_unallowed_rejected (env : Env) (label : String) (url : Url)
    (mw md : Bool) (h : Handlers) (cmd : String)
    (hloc : is_local_url env url = false) :
    (on_message env label url (.denied mw md) h cmd).pluginCalls = []
      ∧ (on_message env label url (.denied mw md) h cmd).directCalls = []
      ∧ (on_message env label url (.denied mw md) h cmd).rejectMsg.isSome = true := by
  simp [on_message, hloc]

/-- Witness for C1: a remote request with zero configured policies is rejected
with no handler invoked. -/
theorem c1_remote_unallowed_rejected_witness :
    (on_message env0 "main" url0 (.denied false false) h0 "greet").pluginCalls = []
      ∧ (on_message env0 "main" url0 (.denied false false) h0 "greet").directCalls = []
      ∧ (on_message env0 "main" url0 (.denied false false) h0 "greet").rejectMsg.isSome = true :=
  c1_remote_unallowed_rejected env0 "main" url0 false false h0 "greet" (by decide)

/-- C2: a plugin-prefixed request from a remote origin whose routed plugin name
is neither the channel pseudo-plugin nor in the Allowed scope's plugin set is
rejected with exactly `Not allowed by the scope` and no handler is invoked. -/
theorem c2_plugin_scope_rejected (env : Env) (label : String) (url : Url)
    (plugins : List String) (h : Handlers) (cmd p c : String)
    (hloc : is_local_url env url = false)
    (hpre : startsWithPlugin cmd = true)
    (hroute : routePlugin cmd = (p, c))
    (hch : (p == CHANNEL_PLUGIN_NAME) = false)
    (hmem : plugins.contains p = false) :
    on_message env label url (.allowed plugins) h cmd
      = ⟨[], [], some IPC_SCOPE_DOES_NOT_ALLOW⟩ := by
  have hmem' : p ∉ plugins := by simpa using hmem
  simp [on_message, hloc, hpre, hroute, hch, hmem']

/-- Witness for C2: `plugin:fs|readFile` from a remote origin whose allowed
plugin set is `dialog` only. -/
theorem c2_plugin_scope_rejected_witness :
    on_message env0 "main" url0 (.allowed ["dialog"]) h0 "plugin:fs|readFile"
      = ⟨[], [], some IPC_SCOPE_DOES_NOT_ALLOW⟩ :=
  c2_plugin_scope_rejected env0 "main" url0 ["dialog"] h0 "plugin:fs|readFile" "fs" "readFile"
    (by decide) (by decide) (by decide) (by decide) (by decide)

/-- C3 counterexample: the rejection payload delivered to the remote caller does
depend on which axis of the scope lookup failed — a domain-axis failure and a
window-axis failure produce different caller-facing messages, and the
domain-axis message is exactly the URL-naming diagnostic. -/
theorem c3_denial_message_discloses_axis :
    (on_message env0 "main" url0 (.denied true false) h0 "greet").rejectMsg
        ≠ (on_message env0 "main" url0 (.denied false true) h0 "greet").rejectMsg
      ∧ (on_message env0 "main" url0 (.denied true false) h0 "greet").rejectMsg
          = some (ipc_scope_domain_error_message url0.full)
      ∧ (on_message env0 "main" url0 (.denied false true) h0 "greet").rejectMsg
          = some (ipc_scope_window_error_message "main") := by
  refine ⟨by decide, by decide, by decide⟩

/-- C3 amended: for a remote-origin request denied by the scope gate, the
rejection payload delivered back to the caller names the axis that failed:
the URL-naming message when the window policy matched (domain missing), the
window-naming message when the domain matched (window policy missing), and the
combined message when neither matched. -/
theorem c3_denial_message_names_axis (env : Env) (label : String) (url : Url)
    (mw md : Bool) (h : Handlers) (cmd : String)
    (hloc : is_local_url env url = false) :
    (on_message env label url (.denied mw md) h cmd).rejectMsg
      = some (if mw then ipc_scope_domain_error_message url.full
              else if md then ipc_scope_window_error_message label
              else ipc_scope_not_found_error_message label url.full) := by
  simp [on_message, hloc]

/-- Witness for C3 amended: a domain-axis failure at a concrete remote URL. -/
theorem c3_denial_message_names_axis_witness :
    (on_message env0 "main" url0 (.denied true false) h0 "greet").rejectMsg
      = some (if true then ipc_scope_domain_error_message url0.full
              else if false then ipc_scope_window_error_message "main"
              else ipc_scope_not_found_error_message "main" url0.full) :=
  c3_denial_message_names_axis env0 "main" url0 true false h0 "greet" (by decide)

/-- C6: a request from a local origin bypasses the scope gate entirely — the
dispatch outcome is independent of whatever the gate would have answered
(including when zero policies are configured), and dispatch always proceeds to
a handler-table lookup with no plugin-set restriction. -/
theorem c6_local_bypasses_gate (env : Env) (label : String) (url : Url)
    (ra ra' : ScopeAccess) (h : Handlers) (cmd : String)
    (hloc : is_local_url env url = true) :
    on_message env label url ra h cmd = on_message env label url ra' h cmd
      ∧ ((on_message env label url ra h cmd).pluginCalls = [routePlugin cmd]
            ∧ (on_message env label url ra h cmd).directCalls = []
          ∨ (on_message env label url ra h cmd).pluginCalls = []
            ∧ (on_message env label url ra h cmd).directCalls = [cmd]) := by
  constructor
  · cases ra <;> cases ra' <;> simp [on_message, hloc]
  · cases hsp : startsWithPlugin cmd with
    | true =>
      left
      cases hext : h.extendApi (routePlugin cmd).1 (routePlugin cmd).2
        <;> simp [on_message, hloc, hsp, hext]
    | false =>
      right
      cases hrun : h.runInvokeHandler cmd <;> simp [on_message, hloc, hsp, hrun]

/-- Witness for C6: with a local origin, a zero-policy denial and an Allowed
answer produce the same dispatch, and the direct handler table is consulted. -/
theorem c6_local_bypasses_gate_witness :
    on_message envL "main" url0 (.denied false false) h0 "greet"
        = on_message envL "main" url0 (.allowed []) h0 "greet"
      ∧ ((on_message envL "main" url0 (.denied false false) h0 "greet").pluginCalls
            = [routePlugin "greet"]
            ∧ (on_message envL "main" url0 (.denied false false) h0 "greet").directCalls = []
          ∨ (on_message envL "main" url0 (.denied false false) h0 "greet").pluginCalls = []
            ∧ (on_message envL "main" url0 (.denied false false) h0 "greet").directCalls
                = ["greet"]) :=
  c6_local_bypasses_gate envL "main" url0 (.denied false false) (.allowed []) h0 "greet"
    (by decide)

/-- C10: the fail-open `unwrap_or(true)` default of the plugin-scope check is
semantically unreachable — replacing it by a fail-closed `false` default yields
the same dispatch outcome on every input, because every remote request with an
absent scope is rejected by the earlier branch before the plugin check runs,
and a local request short-circuits the check. -/
theorem c10_fail_open_default_unreachable (env : Env) (label : String) (url : Url)
    (ra : ScopeAccess) (h : Handlers) (cmd : String) :
    on_message env label url ra h cmd = on_message_scope_fail_closed env label url ra h cmd := by
  cases hloc : is_local_url env url with
  | false => cases ra <;> simp [on_message, on_message_scope_fail_closed, hloc]
  | true => simp [on_message, on_message_scope_fail_closed, hloc]

/-- Unregistering an id held by no set leaves the registry unchanged. -/
theorem unlisten_js_not_present (event : String) (id : EventId) (reg : Registry)
    (h : ∀ p ∈ reg, id ∉ p.2) : unlisten_js reg event id = reg := by
  induction reg with
  | nil => rfl
  | cons q rest ih =>
    have hid : id ∉ q.2 := h q (List.mem_cons_self _ _)
    have hc : q.2.contains id = false := by simpa using hid
    obtain ⟨k, ids⟩ := q
    simp only [unlisten_js, hc]
    rw [if_neg (by simp_all)]
    rw [ih (fun p hp => h p (List.mem_cons_of_mem _ hp))]

/-- Unregistering removes the id from the first set containing it, dropping the
key entirely when that set becomes empty. -/
theorem unlisten_js_removes_first (event : String) (id : EventId)
    (pre post : Registry) (k : JsEventListenerKey) (ids : List EventId)
    (hpre : ∀ p ∈ pre, id ∉ p.2) (hid : id ∈ ids) :
    unlisten_js (pre ++ (k, ids) :: post) event id
      = pre ++ (if (ids.filter (fun x => x != id)).isEmpty then post
                else (k, ids.filter (fun x => x != id)) :: post) := by
  induction pre with
  | nil =>
    have hc : ids.contains id = true := by simpa using hid
    simp only [List.nil_append, unlisten_js, hc]
    rw [if_pos (by simp_all)]
  | cons q rest ih =>
    have hq : id ∉ q.2 := hpre q (List.mem_cons_self _ _)
    have hc : q.2.contains id = false := by simpa using hq
    obtain ⟨k0, ids0⟩ := q
    simp only [List.cons_append, unlisten_js, hc]
    rw [if_neg (by simp_all)]
    simp only [List.append_eq]
    rw [ih (fun p hp => hpre p (List.mem_cons_of_mem _ hp))]

/-- Registering a fresh key appends it at the end of the registry. -/
theorem listen_js_append (reg : Registry) (k : JsEventListenerKey) (id : EventId)
    (h : containsKey reg k = false) : listen_js reg k id = reg ++ [(k, [id])] := by
  induction reg with
  | nil => rfl
  | cons q rest ih =>
    obtain ⟨k', ids⟩ := q
    simp only [containsKey, List.any_cons, Bool.or_eq_false_iff] at h
    simp only [listen_js]
    rw [if_neg (by simp [h.1])]
    rw [ih (by simpa [containsKey] using h.2)]
    rfl

/-- C8: `unlisten_js` round-trips the registry.  An id held by no set is a
silent no-op; an id in some set is removed from the first set containing it,
and the key disappears once its last id is removed; registering a fresh key/id
then unregistering that id restores the original registry; and removing the
only id of the only key leaves a registry on which `has_js_listener` is false
for every source and event. -/
theorem c8_unlisten_roundtrip (event : String) (id : EventId) :
    (∀ reg : Registry, (∀ p ∈ reg, id ∉ p.2) → unlisten_js reg event id = reg)
    ∧ (∀ (pre post : Registry) (k : JsEventListenerKey) (ids : List EventId),
        (∀ p ∈ pre, id ∉ p.2) → id ∈ ids →
        unlisten_js (pre ++ (k, ids) :: post) event id
          = pre ++ (if (ids.filter (fun x => x != id)).isEmpty then post
                    else (k, ids.filter (fun x => x != id)) :: post))
    ∧ (∀ (reg : Registry) (k : JsEventListenerKey),
        containsKey reg k = false → (∀ p ∈ reg, id ∉ p.2) →
        unlisten_js (listen_js reg k id) event id = reg)
    ∧ (∀ (wl : String) (k : JsEventListenerKey) (s : EventSource) (e : String),
        has_js_listener wl (unlisten_js [(k, [id])] event id) s e = false) := by
  refine ⟨unlisten_js_not_present event id, unlisten_js_removes_first event id, ?_, ?_⟩
  · intro reg k hck hid
    rw [listen_js_append reg k id hck]
    rw [unlisten_js_removes_first event id reg [] k [id] hid (List.mem_singleton.mpr rfl)]
    simp
  · intro wl k s e
    have hdel : unlisten_js [(k, [id])] event id = [] := by
      simp [unlisten_js]
    rw [hdel]
    cases s <;> simp [has_js_listener, containsKey]

/-- Witness for C8: a missing id is a no-op, register-then-unregister of a
fresh key restores the empty registry, and after the last id of a key is
removed the delivery predicate no longer matches it. -/
theorem c8_unlisten_roundtrip_witness :
    unlisten_js [(⟨.global, "ping"⟩, [1, 2])] "ping" 7 = [(⟨.global, "ping"⟩, [1, 2])]
      ∧ unlisten_js (listen_js [] ⟨.webview "main", "ping"⟩ 5) "ping" 5 = []
      ∧ has_js_listener "main" (unlisten_js [(⟨.webview "main", "ping"⟩, [5])] "ping" 5)
          (.webview "main") "ping" = false :=
  ⟨(c8_unlisten_roundtrip "ping" 7).1 [(⟨.global, "ping"⟩, [1, 2])] (by decide),
   (c8_unlisten_roundtrip "ping" 5).2.2.1 [] ⟨.webview "main", "ping"⟩ (by decide) (by decide),
   (c8_unlisten_roundtrip "ping" 5).2.2.2 "main" ⟨.webview "main", "ping"⟩
     (.webview "main") "ping"⟩

/-- Case analysis of `on_message`: either the dispatcher rejected before any
handler lookup, or it performed exactly one lookup — in the plugin table with
the routed (plugin, command) pair, or in the direct table with the raw
command — rejecting with the not-found message when the lookup was unhandled. -/
theorem on_message_cases (env : Env) (label : String) (url : Url)
    (ra : ScopeAccess) (h : Handlers) (cmd : String) :
    ((on_message env label url ra h cmd).pluginCalls = []
        ∧ (on_message env label url ra h cmd).directCalls = [])
    ∨ (startsWithPlugin cmd = true
        ∧ on_message env label url ra h cmd
            = ⟨[routePlugin cmd], [],
               if h.extendApi (routePlugin cmd).1 (routePlugin cmd).2 then none
               else some ("Command " ++ (routePlugin cmd).2 ++ " not found")⟩)
    ∨ (startsWithPlugin cmd = false
        ∧ on_message env label url ra h cmd
            = ⟨[], [cmd],
               if h.runInvokeHandler cmd then none
               else some ("Command " ++ cmd ++ " not found")⟩) := by
  cases hsp : startsWithPlugin cmd with
  | true =>
    cases hloc : is_local_url env url with
    | true =>
      right; left
      refine ⟨rfl, ?_⟩
      cases hext : h.extendApi (routePlugin cmd).1 (routePlugin cmd).2
        <;> simp [on_message, hloc, hsp, hext]
    | false =>
      cases ra with
      | denied mw md => left; simp [on_message, hloc]
      | allowed plugins =>
        by_cases hpass : (routePlugin cmd).1 = CHANNEL_PLUGIN_NAME
            ∨ (routePlugin cmd).1 ∈ plugins
        · right; left
          refine ⟨rfl, ?_⟩
          rcases hpass with hch | hin
          · have hb : ((routePlugin cmd).1 == CHANNEL_PLUGIN_NAME) = true := by simp [hch]
            cases hext : h.extendApi (routePlugin cmd).1 (routePlugin cmd).2
              <;> simp [on_message, hloc, hsp, hb, hext]
          · cases hext : h.extendApi (routePlugin cmd).1 (routePlugin cmd).2
              <;> simp [on_message, hloc, hsp, hin, hext]
        · push_neg at hpass
          left
          simp [on_message, hloc, hsp, hpass.1, hpass.2]
  | false =>
    cases hloc : is_local_url env url with
    | true =>
      right; right
      refine ⟨rfl, ?_⟩
      cases hrun : h.runInvokeHandler cmd <;> simp [on_message, hloc, hsp, hrun]
    | false =>
      cases ra with
      | denied mw md => left; simp [on_message, hloc]
      | allowed plugins =>
        right; right
        refine ⟨rfl, ?_⟩
        cases hrun : h.runInvokeHandler cmd <;> simp [on_message, hloc, hsp, hrun]

/-- C9: whenever a handler-table lookup was performed and reported unhandled,
the dispatcher rejects with exactly `Command {name} not found`, where the name
is the command after any plugin routing (prefix stripping) was applied. -/
theorem c9_command_not_found (env : Env) (label : String) (url : Url)
    (ra : ScopeAccess) (h : Handlers) (cmd : String) :
    ((on_message env label url ra h cmd).directCalls = [cmd]
        → h.runInvokeHandler cmd = false
        → (on_message env label url ra h cmd).rejectMsg
            = some ("Command " ++ cmd ++ " not found"))
    ∧ (∀ p c, (on_message env label url ra h cmd).pluginCalls = [(p, c)]
        → h.extendApi p c = false
        → (on_message env label url ra h cmd).rejectMsg
            = some ("Command " ++ c ++ " not found")) := by
  rcases on_message_cases env label url ra h cmd with
    ⟨hp0, hd0⟩ | ⟨_, heq⟩ | ⟨_, heq⟩
  · refine ⟨fun hd _ => ?_, fun p c hpc _ => ?_⟩
    · rw [hd0] at hd; simp at hd
    · rw [hp0] at hpc; simp at hpc
  · refine ⟨fun hd _ => ?_, fun p c hpc hext' => ?_⟩
    · rw [heq] at hd; simp at hd
    · rw [heq] at hpc
      simp at hpc
      rw [heq]
      simp [hpc, hext']
  · refine ⟨fun hd hrun => ?_, fun p c hpc _ => ?_⟩
    · rw [heq]
      simp [hrun]
    · rw [heq] at hpc; simp at hpc

/-- Witness for C9: the unknown direct command `doStuff` is rejected with
`Command doStuff not found`. -/
theorem c9_command_not_found_witness :
    (on_message envL "main" url0 (.denied false false) h0 "doStuff").rejectMsg
      = some "Command doStuff not found" :=
  (c9_command_not_found envL "main" url0 (.denied false false) h0 "doStuff").1
    (by decide) rfl

/-- One unfolding step of `removeAllAux` on a cons cell with positive fuel. -/
theorem removeAllAux_succ (pat : List Char) (n : Nat) (c : Char) (rest : List Char) :
    removeAllAux pat (n + 1) (c :: rest)
      = if pat.isPrefixOf (c :: rest) then removeAllAux pat n (rest.drop (pat.length - 1))
        else c :: removeAllAux pat n rest := rfl

/-- When the pattern occurs nowhere in `s`, the deletion scan returns `s`
unchanged, for every fuel value. -/
theorem removeAllAux_no_occurrence (pat : List Char) (fuel : Nat) (s : List Char)
    (hocc : occursB pat s = false) : removeAllAux pat fuel s = s := by
  induction fuel generalizing s with
  | zero => cases s <;> rfl
  | succ n ih =>
    cases s with
    | nil => rfl
    | cons c rest =>
      simp only [occursB, Bool.or_eq_false_iff] at hocc
      rw [removeAllAux_succ, if_neg (by simp [hocc.1]), ih rest hocc.2]

/-- A list is a `isPrefixOf`-prefix of itself followed by anything. -/
theorem isPrefixOf_append_self (l t : List Char) : l.isPrefixOf (l ++ t) = true := by
  induction l with
  | nil => cases t <;> rfl
  | cons a l ih => simp [List.isPrefixOf, ih]

/-- Deleting all occurrences of a nonempty pattern from `pat ++ tail` where the
pattern occurs nowhere in `tail` yields `tail`. -/
theorem removeAll_leading (pat tail : List Char) (hne : pat ≠ [])
    (hocc : occursB pat tail = false) : removeAll pat (pat ++ tail) = tail := by
  obtain ⟨p0, pr, rfl⟩ : ∃ p0 pr, pat = p0 :: pr := by
    cases pat with
    | nil => exact absurd rfl hne
    | cons a b => exact ⟨a, b, rfl⟩
  have hpre : (p0 :: pr).isPrefixOf (p0 :: (pr ++ tail)) = true :=
    isPrefixOf_append_self (p0 :: pr) tail
  show removeAllAux (p0 :: pr) (p0 :: (pr ++ tail)).length (p0 :: (pr ++ tail)) = tail
  rw [List.length_cons, removeAllAux_succ, if_pos hpre]
  have hdrop : (pr ++ tail).drop ((p0 :: pr).length - 1) = tail := by
    simp [List.drop_left]
  rw [hdrop]
  exact removeAllAux_no_occurrence _ _ _ hocc

/-- The function `splitChar` always yields at least one token. -/
theorem splitChar_ne_nil (sep : Char) (l : List Char) : splitChar sep l ≠ [] := by
  cases l with
  | nil => simp [splitChar]
  | cons c rest =>
    simp only [splitChar]
    cases splitChar sep rest with
    | nil => simp
    | cons t ts => by_cases hc : (c == sep) = true <;> simp [hc]

/-- Splitting a separator-free list yields that single token. -/
theorem splitChar_no_sep (sep : Char) (l : List Char) (h : sep ∉ l) :
    splitChar sep l = [l] := by
  induction l with
  | nil => rfl
  | cons c rest ih =>
    have hc : (c == sep) = false := by
      simp only [beq_eq_false_iff_ne, ne_eq]
      rintro rfl
      exact h (List.mem_cons_self _ _)
    have ih' := ih (fun hm => h (List.mem_cons_of_mem _ hm))
    simp [splitChar, ih', hc]

/-- Splitting `p ++ sep :: b` where `p` is separator-free peels off `p` as the
first token. -/
theorem splitChar_append_sep (sep : Char) (p b : List Char) (h : sep ∉ p) :
    splitChar sep (p ++ sep :: b) = p :: splitChar sep b := by
  induction p with
  | nil =>
    simp only [List.nil_append, splitChar]
    cases hb : splitChar sep b with
    | nil => exact absurd hb (splitChar_ne_nil sep b)
    | cons t ts => simp
  | cons c p ih =>
    have hc : (c == sep) = false := by
      simp only [beq_eq_false_iff_ne, ne_eq]
      rintro rfl
      exact h (List.mem_cons_self _ _)
    have ih' := ih (fun hm => h (List.mem_cons_of_mem _ hm))
    simp [splitChar, ih', hc]

/-- C7 counterexample: the routed command is NOT everything after the first
separator.  For `plugin:fs|read|File` the code routes the command `read`,
dropping `|File`, and rejects an unhandled dispatch with `Command read not
found`; moreover the replace step deletes every occurrence of `plugin:`, not
just a leading prefix, as `plugin:fs|plugin:deep` shows. -/
theorem c7_command_truncated_counterexample :
    routePlugin "plugin:fs|read|File" = ("fs", "read")
      ∧ ("read" : String) ≠ "read|File"
      ∧ routePlugin "plugin:fs|plugin:deep" = ("fs", "deep")
      ∧ (on_message envL "main" url0 (.denied false false) h0 "plugin:fs|read|File").rejectMsg
          = some "Command read not found" :=
  ⟨by decide, by decide, by decide, by decide⟩

/-- C7 amended: routing deletes every occurrence of `plugin:` from the command
string and splits the remainder on the separator; the plugin is the first token
and the command is the second token only (text after a further separator is
dropped); when the remainder has no separator the command resolves to the empty
string, which fails handler lookup and is reported as command-not-found rather
than a distinct error. -/
theorem c7_route_second_token :
    (∀ (cmd : String) (p c rest : List Char), '|' ∉ p → '|' ∉ c →
        occursB "plugin:".data (p ++ '|' :: (c ++ rest)) = false →
        (rest = [] ∨ ∃ r, rest = '|' :: r) →
        cmd.data = "plugin:".data ++ (p ++ '|' :: (c ++ rest)) →
        routePlugin cmd = (⟨p⟩, ⟨c⟩))
    ∧ (∀ (cmd : String) (r : List Char) (env : Env) (label : String) (url : Url)
          (ra : ScopeAccess) (h : Handlers),
        '|' ∉ r → occursB "plugin:".data r = false →
        cmd.data = "plugin:".data ++ r →
        is_local_url env url = true → h.extendApi ⟨r⟩ "" = false →
        routePlugin cmd = (⟨r⟩, "")
          ∧ (on_message env label url ra h cmd).rejectMsg
              = some ("Command " ++ "" ++ " not found")) := by
  constructor
  · intro cmd p c rest hp hc hocc hrest hdata
    simp only [routePlugin]
    rw [hdata, removeAll_leading _ _ (by decide) hocc]
    rcases hrest with rfl | ⟨r, rfl⟩
    · rw [List.append_nil, splitChar_append_sep '|' p c hp, splitChar_no_sep '|' c hc]
      rfl
    · rw [splitChar_append_sep '|' p (c ++ '|' :: r) hp, splitChar_append_sep '|' c r hc]
      rfl
  · intro cmd r env label url ra h hr hocc hdata hloc hext
    have hroute : routePlugin cmd = (⟨r⟩, "") := by
      simp only [routePlugin]
      rw [hdata, removeAll_leading _ _ (by decide) hocc, splitChar_no_sep '|' r hr]
      rfl
    have hsp : startsWithPlugin cmd = true := by
      simp only [startsWithPlugin]
      rw [hdata]
      exact isPrefixOf_append_self _ _
    refine ⟨hroute, ?_⟩
    simp [on_message, hloc, hsp, hroute, hext]

/-- Witness for C7 amended: `plugin:fs|read|File` routes to command `read`, and
the malformed `plugin:fs` routes to the empty command, rejected as
command-not-found. -/
theorem c7_route_second_token_witness :
    routePlugin "plugin:fs|read|File" = ("fs", "read")
      ∧ (on_message envL "main" url0 (.denied false false) h0 "plugin:fs").rejectMsg
          = some ("Command " ++ "" ++ " not found") :=
  ⟨c7_route_second_token.1 "plugin:fs|read|File" "fs".data "read".data "|File".data
      (by decide) (by decide) (by decide) (Or.inr ⟨"File".data, by decide⟩) (by decide),
   (c7_route_second_token.2 "plugin:fs" "fs".data envL "main" url0 (.denied false false) h0
      (by decide) (by decide) (by decide) (by decide) (by decide)).2⟩

end TauriWebview
